import Mathlib

/-!
# Verification of the mastra-sdr lead-processing pipeline and email dispatch

Shallow embedding of the two core workflows of the repository:

* `src/mastra/workflows/lead-research-workflow.ts` — the lead-processing
  pipeline (`processLeadsStep`, `flushBatchWrites`, `generateSummaryStep`,
  `colIndexToA1`),
* the email-dispatch workflow (`loadLeadsStep`, `applyFiltersStep`,
  `sendEmailsStep`, `updateSendStatusStep`, and its own `colIndexToA1`),
* the behaviour of the Google-Sheets reader/writer tool wrappers
  (`google-sheets-reader.ts`, `google-sheets-writer.ts`, `gmail-sender.ts`)
  as far as the workflows depend on it: the wrappers catch all transport
  errors internally and return a `success` flag instead of throwing.

External collaborators (sheet store, Tavily search, the scoring LLM, the
mail transport) are modelled as environments: functions from row number and
attempt number to the response the collaborator would give.  JavaScript
truthiness, `parseInt`, `Math.round`, the regex parsing of the oracle reply
and A1-notation arithmetic are modelled explicitly.  Machine floats only
occur in `Math.round(x/y)` on small non-negative integers, modelled as exact
rational rounding.

Concurrency: each per-row (per-send) task is an independent async unit whose
result does not depend on its siblings; chunk barriers (`Promise.all`)
preserve the order of results.  Event traces below use the sequential
schedule (tasks of a chunk in array order), which is the unique schedule
when the chunk size is 1; counters and results are schedule-independent.
-/

namespace MastraSDR

/-! ## JavaScript primitives -/

/-- JS `a || d` for strings: the empty string is falsy. -/
def jsOrStr (a d : String) : String := if a = "" then d else a

/-- JS `a || d` where `a` is a possibly-undefined string
(`undefined` and `""` are falsy). -/
def jsOrOptStr (a : Option String) (d : String) : String :=
  match a with
  | none => d
  | some s => jsOrStr s d

/-- JS truthiness of a possibly-undefined string. -/
def jsTruthyStr : Option String → Bool
  | none => false
  | some s => s ≠ ""

/-- JS truthiness of a possibly-undefined number (`0` and `NaN` are falsy;
`none` covers both `undefined` and `NaN`). -/
def jsTruthyNat : Option Nat → Bool
  | none => false
  | some n => n ≠ 0

/-- JS `a || d` on a possibly-undefined number (`0` is falsy and falls back
to the default, exactly as in the source). -/
def jsOrNat (a : Option Nat) (d : Nat) : Nat :=
  match a with
  | none => d
  | some n => if n = 0 then d else n

/-- Digit run to number, as `parseInt` does on a pure digit string. -/
def digitsToNat (ds : List Char) : Nat :=
  ds.foldl (fun a c => a * 10 + (c.toNat - 48)) 0

/-- JS `parseInt(s, 10)`: optional leading whitespace, then a digit run;
`none` is `NaN`.  (Signs do not occur in the sheets handled here.) -/
def jsParseInt (s : String) : Option Nat :=
  let cs := s.toList.dropWhile Char.isWhitespace
  let ds := cs.takeWhile Char.isDigit
  if ds = [] then none else some (digitsToNat ds)

/-- ASCII lower-casing, JS `toLowerCase` on the ASCII headers used here. -/
def jsToLower (s : String) : String := ⟨s.toList.map Char.toLower⟩

/-- `needle` occurs as a contiguous sublist of `hay`. -/
def listContainsSub (needle : List Char) : List Char → Bool
  | [] => needle.isEmpty
  | c :: t => needle.isPrefixOf (c :: t) || listContainsSub needle t

/-- JS `hay.includes(needle)` (substring test). -/
def jsIncludes (hay needle : String) : Bool :=
  listContainsSub needle.toList hay.toList

/-- JS `String.prototype.trim`. -/
def jsTrim (cs : List Char) : List Char :=
  ((cs.dropWhile Char.isWhitespace).reverse.dropWhile Char.isWhitespace).reverse

/-- JS `Math.round(a / b)` for naturals `a`, `b > 0` (round half away from
zero on non-negatives): `⌊(2a + b) / 2b⌋`. -/
def jsRoundDiv (a b : Nat) : Nat := (2 * a + b) / (2 * b)

/-! ## Chunking

`for (let i = 0; i < xs.length; i += c) { batch = xs.slice(i, i + c); … }`
partitions `xs` into consecutive chunks of size `c` (last one possibly
shorter).  The step width `c` is positive in every call site (the research
plan's `batchSize`, the dispatch constants 50 and 100). -/

def chunksOf (c : Nat) (l : List α) : List (List α) :=
  if hc : c = 0 then []
  else
    match l with
    | [] => []
    | x :: xs => (x :: xs).take c :: chunksOf c ((x :: xs).drop c)
termination_by l.length
decreasing_by
  simp only [List.length_drop, List.length_cons]
  omega

/-! ## Parsing the scoring oracle's reply

`lead-research-workflow.ts` extracts four labelled sections with regexes:

* `/SUMMARY:\s*(.+?)(?=SCORE:|$)/s`
* `/SCORE:\s*(\d+)/`
* `/POSSIBLE CLIENT:\s*(YES|NO)/i`
* `/MESSAGE:\s*(.+)/s`

Each function below scans start positions left to right like the regex
engine and reproduces the backtracking result at the leftmost matchable
position. -/

/-- `/SCORE:\s*(\d+)/`: at the leftmost `SCORE:` that is followed (after
maximal whitespace) by a digit, capture the maximal digit run. -/
def labeledNumMatch (label : List Char) : List Char → Option Nat
  | [] => none
  | c :: t =>
    if label.isPrefixOf (c :: t) then
      let after := ((c :: t).drop label.length).dropWhile Char.isWhitespace
      let ds := after.takeWhile Char.isDigit
      if ds = [] then labeledNumMatch label t else some (digitsToNat ds)
    else labeledNumMatch label t

def scoreMatchL : List Char → Option Nat := labeledNumMatch "SCORE:".toList

def scoreMatch (s : String) : Option Nat := scoreMatchL s.toList

/-- Case-insensitive prefix test (the `i` flag). -/
def ciPrefix (needle hay : List Char) : Bool :=
  (needle.map Char.toLower).isPrefixOf (hay.map Char.toLower)

/-- `/POSSIBLE CLIENT:\s*(YES|NO)/i` followed by `.toUpperCase()` on the
capture: the result is `"YES"` or `"NO"`. -/
def possibleMatchL : List Char → Option String
  | [] => none
  | c :: t =>
    if ciPrefix "POSSIBLE CLIENT:".toList (c :: t) then
      let after := ((c :: t).drop 16).dropWhile Char.isWhitespace
      if ciPrefix "YES".toList after then some "YES"
      else if ciPrefix "NO".toList after then some "NO"
      else possibleMatchL t
    else possibleMatchL t

def possibleMatch (s : String) : Option String := possibleMatchL s.toList

/-- Distance to the next position where `SCORE:` begins (or to the end). -/
def distToScore : List Char → Nat
  | [] => 0
  | c :: t => if "SCORE:".toList.isPrefixOf (c :: t) then 0 else 1 + distToScore t

/-- Capture of `\s*(.+?)(?=SCORE:|$)` applied to the text `after` following
the `SUMMARY:` label (`after` is non-empty): greedily skip whitespace, then
lazily extend the capture (at least one character) to the next `SCORE:` or
to the end.  If `after` is all whitespace the `\s*` backtracks one character
so the capture is the final character. -/
def lazyCapture (after : List Char) : List Char :=
  let w := (after.takeWhile Char.isWhitespace).length
  if after.length ≤ w then after.drop (after.length - 1)
  else
    let region := after.drop w
    region.take (1 + distToScore (region.drop 1))

/-- `/SUMMARY:\s*(.+?)(?=SCORE:|$)/s`: leftmost `SUMMARY:` with at least one
following character. -/
def summaryMatchL : List Char → Option (List Char)
  | [] => none
  | c :: t =>
    if "SUMMARY:".toList.isPrefixOf (c :: t) && decide (8 < (c :: t).length) then
      some (lazyCapture ((c :: t).drop 8))
    else summaryMatchL t

/-- Capture of `\s*(.+)` (greedy to the end; backtracks one character when
everything after the label is whitespace). -/
def greedyCapture (after : List Char) : List Char :=
  let w := (after.takeWhile Char.isWhitespace).length
  if after.length ≤ w then after.drop (after.length - 1) else after.drop w

/-- `/MESSAGE:\s*(.+)/s`: leftmost `MESSAGE:` with at least one following
character. -/
def messageMatchL : List Char → Option (List Char)
  | [] => none
  | c :: t =>
    if "MESSAGE:".toList.isPrefixOf (c :: t) && decide (8 < (c :: t).length) then
      some (greedyCapture ((c :: t).drop 8))
    else messageMatchL t

/-- `summaryMatch?.[1]?.trim() || 'Analysis pending'`. -/
def parsedSummary (s : String) : String :=
  jsOrOptStr ((summaryMatchL s.toList).map fun cs => ⟨jsTrim cs⟩) "Analysis pending"

/-- `parseInt(scoreMatch?.[1] || '50', 10)`. -/
def parsedScore (s : String) : Nat := (scoreMatch s).getD 50

/-- `possibleMatch?.[1]?.toUpperCase() || (score >= 60 ? 'YES' : 'NO')`.
(A matched `"YES"`/`"NO"` is never falsy, so `||` only fires on a missing
label.) -/
def parsedPossible (s : String) (score : Nat) : String :=
  match possibleMatch s with
  | some v => v
  | none => if 60 ≤ score then "YES" else "NO"

/-- `messageMatch?.[1]?.trim() || 'Message pending'`. -/
def parsedMessage (s : String) : String :=
  jsOrOptStr ((messageMatchL s.toList).map fun cs => ⟨jsTrim cs⟩) "Message pending"

/-! ## The pipeline (`processLeadsStep` of `lead-research-workflow.ts`)

The row store, search service and scoring agent are abstracted as an
environment indexed by row number and attempt number (every retry re-issues
the calls, so responses may differ per attempt). -/

/-- One row as returned by the sheets reader in `row` mode
(header → cell value). -/
def RowData := List (String × String)

/-- Outcome of one `tavily_search` call: the wrapper around the call catches
exceptions (`thrown`), a falsy result leaves the placeholder text
(`noResult`), otherwise the stringified result is used (`found`). -/
inductive SearchOut where
  | thrown
  | noResult
  | found (text : String)

/-- External collaborators of one pipeline run.

* `read r k`: reader tool result for row `r` on attempt `k`; `none` models
  `!rowResult?.success || !rowResult.row` (the tool catches transport errors
  internally and reports `success: false`, it does not throw).
* `search r k`: Tavily result.
* `gen r k`: the agent call, which may throw (`.error msg`); `.ok text` is
  `analysisResponse?.text || ''`. -/
structure PipeEnv where
  read : Nat → Nat → Option RowData
  search : Nat → Nat → SearchOut
  gen : Nat → Nat → Except String String

/-- Per-run configuration: the confirmed company column and whether the
`tavily_search` tool resolved (`if (tavilySearch)`). -/
structure PipeCfg where
  companyColumn : String
  hasTavily : Bool

/-- `leadData[columnMapping.companyColumn]`. -/
def rowLookup (d : RowData) (k : String) : Option String :=
  (d.find? fun p => p.1 = k).map Prod.snd

/-- External-interaction events of a run (sequential schedule). -/
inductive Ev where
  | headerWrite
  | readCall (row attempt : Nat)
  | searchCall (row attempt : Nat)
  | genCall (row attempt : Nat)
  | writeRow (row : Nat) (values : List String)
  | sleep (ms : Nat)
  | sendCall (row attempt : Nat)
deriving DecidableEq, Repr

/-- One entry of the step's `results` array. -/
structure RowResult where
  success : Bool
  rowNumber : Nat
  companyName : String
  score : Nat
  isPossibleClient : String
  error : Option String
deriving DecidableEq, Repr

/-- The failure record pushed after all retries are exhausted. -/
def failResult (r : Nat) (lastError : String) : RowResult :=
  { success := false, rowNumber := r, companyName := "Unknown", score := 0,
    isPossibleClient := "NO", error := some (jsOrStr lastError "Unknown error") }

/-- One attempt of the per-row task body (read row → research → score →
parse).  Returns the events issued and either the success record together
with the four values buffered for the sheet write, or the thrown error
message. -/
def attemptRow (env : PipeEnv) (cfg : PipeCfg) (r k : Nat) :
    List Ev × Except String (RowResult × List String) :=
  match env.read r k with
  | none => ([.readCall r k], .error "Failed to read row")
  | some leadData =>
    let companyName := jsOrOptStr (rowLookup leadData cfg.companyColumn) "Unknown Company"
    let searchEvs := if cfg.hasTavily then [Ev.searchCall r k] else []
    match env.gen r k with
    | .error e => ([.readCall r k] ++ searchEvs ++ [.genCall r k], .error e)
    | .ok analysisText =>
      let score := parsedScore analysisText
      let isPossibleClient := parsedPossible analysisText score
      let values := [parsedSummary analysisText, toString score, isPossibleClient,
        parsedMessage analysisText]
      ([.readCall r k] ++ searchEvs ++ [.genCall r k],
        .ok ({ success := true, rowNumber := r, companyName := companyName,
               score := score, isPossibleClient := isPossibleClient, error := none },
             values))

/-- The retry loop (`for attempt = k; attempt <= 3; attempt++`) of a row
task: on exception sleep `2000 * attempt` between attempts; after the third
failed attempt record a failure carrying the last error.  Returns events,
the result, and (on success) the values pushed onto the write buffer. -/
def processRowGo (env : PipeEnv) (cfg : PipeCfg) (r : Nat) (k : Nat) :
    List Ev × RowResult × Option (List String) :=
  let (evs, out) := attemptRow env cfg r k
  match out with
  | .ok (res, vals) => (evs, res, some vals)
  | .error e =>
    if h : k < 3 then
      let (evs', res, vals) := processRowGo env cfg r (k + 1)
      (evs ++ [.sleep (2000 * k)] ++ evs', res, vals)
    else
      (evs, failResult r e, none)
termination_by 3 - k

/-- Result of one row task. -/
def processRow (env : PipeEnv) (cfg : PipeCfg) (r : Nat) : RowResult :=
  (processRowGo env cfg r 1).2.1

/-- The buffered sheet write of a row, when the row succeeds. -/
def rowPush (env : PipeEnv) (cfg : PipeCfg) (r : Nat) : Option (Nat × List String) :=
  ((processRowGo env cfg r 1).2.2).map fun v => (r, v)

/-- The data rows of a run: `for (rowNumber = 2; rowNumber <= totalRows + 1)`. -/
def rowNums (totalRows : Nat) : List Nat := List.range' 2 totalRows

/-- Output of `processLeadsStep` (its `outputSchema` minus the pass-through
spreadsheet id). -/
structure PipeOutput where
  totalProcessed : Nat
  successful : Nat
  failed : Nat
  possibleClients : Nat
  averageScore : Nat
  results : List RowResult
deriving DecidableEq, Repr

/-- Counter state while aggregating batch results. -/
structure Accum where
  successful : Nat
  failed : Nat
  possibleClients : Nat
  totalScore : Nat
  results : List RowResult
deriving Repr

def Accum.init : Accum :=
  { successful := 0, failed := 0, possibleClients := 0, totalScore := 0, results := [] }

/-- The per-result aggregation of `processLeadsStep`. -/
def stepAccum (a : Accum) (r : RowResult) : Accum :=
  { successful := if r.success then a.successful + 1 else a.successful
    failed := if r.success then a.failed else a.failed + 1
    possibleClients :=
      if r.success && r.isPossibleClient == "YES" then a.possibleClients + 1
      else a.possibleClients
    totalScore := if r.success then a.totalScore + r.score else a.totalScore
    results := a.results ++ [r] }

/-- `processLeadsStep`: process the rows in chunks of `batchSize`,
aggregating counters per chunk, then report. -/
def processLeads (env : PipeEnv) (cfg : PipeCfg) (totalRows batchSize : Nat) :
    PipeOutput :=
  let chunks := chunksOf batchSize (rowNums totalRows)
  let acc := chunks.foldl
    (fun acc batch => (batch.map (processRow env cfg)).foldl stepAccum acc) Accum.init
  { totalProcessed := totalRows
    successful := acc.successful
    failed := acc.failed
    possibleClients := acc.possibleClients
    averageScore := if 0 < acc.successful then jsRoundDiv acc.totalScore acc.successful else 0
    results := acc.results }

/-! ### Event trace of a run (sequential schedule)

The write buffer (`batchWriteBuffer`) is shared by all row tasks; a task
that pushes the buffer past `BATCH_WRITE_SIZE = 50` flushes it (one parallel
write per buffered row) and clears it.  The remaining buffer is flushed once
after the final chunk.  Between chunks the step sleeps 2000 ms. -/

/-- The flush of `flushBatchWrites`: one write per buffered row. -/
def flushEvents (buf : List (Nat × List String)) : List Ev :=
  buf.map fun e => .writeRow e.1 e.2

/-- Run one row task against the shared buffer: the task's own events, then
its buffer push and (inside the task) the threshold flush. -/
def runRowBuf (env : PipeEnv) (cfg : PipeCfg)
    (st : List Ev × List (Nat × List String)) (r : Nat) :
    List Ev × List (Nat × List String) :=
  let (evs, _, push) := processRowGo env cfg r 1
  match push with
  | none => (st.1 ++ evs, st.2)
  | some vals =>
    let buf := st.2 ++ [(r, vals)]
    if 50 ≤ buf.length then (st.1 ++ evs ++ flushEvents buf, [])
    else (st.1 ++ evs, buf)

/-- Run the chunks in order, sleeping 2000 ms after every chunk except the
last (`if (i + BATCH_SIZE < rowNumbers.length)`). -/
def runChunksBuf (env : PipeEnv) (cfg : PipeCfg) :
    List (List Nat) → List Ev × List (Nat × List String) →
    List Ev × List (Nat × List String)
  | [], st => st
  | [c], st => c.foldl (runRowBuf env cfg) st
  | c :: c' :: rest, st =>
    let st' := c.foldl (runRowBuf env cfg) st
    runChunksBuf env cfg (c' :: rest) (st'.1 ++ [.sleep 2000], st'.2)

/-- Full event trace of `processLeadsStep`: the header write, the chunked
row processing with threshold flushes and inter-chunk sleeps, then the final
flush of the remaining buffer. -/
def processLeadsTrace (env : PipeEnv) (cfg : PipeCfg) (totalRows batchSize : Nat) :
    List Ev :=
  let st := runChunksBuf env cfg (chunksOf batchSize (rowNums totalRows))
    ([.headerWrite], [])
  st.1 ++ flushEvents st.2

/-- The sheet writes occurring in a trace, in order. -/
def writesOf (t : List Ev) : List (Nat × List String) :=
  t.filterMap fun e =>
    match e with
    | .writeRow r v => some (r, v)
    | _ => none

/-- Chunk index of a data row under chunking width `c`
(row `r` sits at position `r - 2` of the row list). -/
def chunkIdx (c r : Nat) : Nat := (r - 2) / c

/-! ### `generateSummaryStep`

`results.filter(r => r.success).sort((a, b) => b.score - a.score).slice(0, 10)`.
`Array.prototype.sort` is required (ES2019+) to be stable, so with this
comparator the result is the unique stable reordering that is
non-increasing in `score`; `List.insertionSort` with the total preorder
`b.score ≤ a.score` computes exactly that reordering. -/

/-- The sort relation of the comparator `(a, b) => b.score - a.score`. -/
def byScoreDesc (a b : RowResult) : Prop := b.score ≤ a.score

instance : DecidableRel byScoreDesc := fun a b => Nat.decLe b.score a.score

/-- One entry of the summary's `topLeads`. -/
structure TopLead where
  companyName : String
  score : Nat
  rowNumber : Nat
deriving DecidableEq, Repr

def toTopLead (r : RowResult) : TopLead :=
  { companyName := r.companyName, score := r.score, rowNumber := r.rowNumber }

/-- `generateSummaryStep`'s top-10 list. -/
def topLeadsOf (results : List RowResult) : List TopLead :=
  ((((results.filter fun r => r.success).insertionSort byScoreDesc).take 10).map toTopLead)

/-- One entry of the summary's `errorReport`. -/
structure ErrorEntry where
  rowNumber : Nat
  companyName : String
  error : String
deriving DecidableEq, Repr

/-- `generateSummaryStep`'s error report. -/
def errorReportOf (results : List RowResult) : List ErrorEntry :=
  (results.filter fun r => !r.success).map fun r =>
    { rowNumber := r.rowNumber, companyName := r.companyName,
      error := jsOrOptStr r.error "Unknown error" }

/-- `generateSummaryStep`: conversion rate, top leads and error report from
the processing output. -/
structure SummaryOutput where
  totalProcessed : Nat
  successful : Nat
  failed : Nat
  possibleClients : Nat
  averageScore : Nat
  conversionRate : Nat
  topLeads : List TopLead
  errorReport : List ErrorEntry
deriving DecidableEq, Repr

def generateSummary (o : PipeOutput) : SummaryOutput :=
  { totalProcessed := o.totalProcessed
    successful := o.successful
    failed := o.failed
    possibleClients := o.possibleClients
    averageScore := o.averageScore
    conversionRate :=
      if 0 < o.totalProcessed then jsRoundDiv (o.possibleClients * 100) o.totalProcessed else 0
    topLeads := topLeadsOf o.results
    errorReport := errorReportOf o.results }

/-! ## The email-dispatch workflow

`loadLeadsStep`, `applyFiltersStep`, `sendEmailsStep` and
`updateSendStatusStep` of the email-dispatch workflow (second part of
`oauth-setup-workflow.ts`'s source file). -/

/-- One lead as produced by `loadLeadsStep` and consumed downstream.
`none` models a JS `undefined`/`null` field; `companyName` is nullable at
the `loadLeads` boundary (a found column whose cell is empty yields `null`
in the source). -/
structure Lead where
  rowNumber : Nat
  email : Option String
  companyName : Option String
  score : Option Nat
  isPossibleClient : Option String
  message : Option String
  summary : Option String
  industry : Option String
deriving DecidableEq, Repr

/-- JS `toUpperCase` (ASCII). -/
def jsToUpper (s : String) : String := ⟨s.toList.map Char.toUpper⟩

/-! ### `loadLeadsStep` — reading the sheet as objects

The reader tool is called with `mode: 'full'`, `parseAsObjects: true` and
`skipEmptyRows: true`.  Cells are strings; an absent or empty cell is `""`.
The tool filters out rows with no non-empty cell, takes the first remaining
row as headers, and turns each later row into a header-keyed object where an
empty/missing cell becomes `null` (`row[index] || null`). -/

def rowNonEmpty (row : List String) : Bool := row.any (· ≠ "")

/-- A parsed row object: ordered header → nullable value. -/
def Obj := List (String × Option String)

def mkObj (headers : List String) (row : List String) : Obj :=
  headers.enum.map fun p =>
    (p.2, let c := row.getD p.1 ""; if c = "" then none else some c)

def objKeys (o : Obj) : List String := o.map Prod.fst

/-- `row[k]` (a `null` value and an absent key are both `none`). -/
def objGet (o : Obj) (k : String) : Option String :=
  ((o.find? fun p => p.1 = k).map Prod.snd).join

/-- `findColumn`: first key containing (case-insensitively) one of the
aliases. -/
def findColumn (o : Obj) (aliases : List String) : Option String :=
  (objKeys o).find? fun k =>
    aliases.any fun a => jsIncludes (jsToLower k) (jsToLower a)

/-- The `dataObjects` output of the reader in full/objects/skip-empty mode. -/
def readFullObjects (sheet : List (List String)) : List Obj :=
  let data := sheet.filter rowNonEmpty
  match data with
  | [] => []
  | headerRow :: _ =>
    let dataRows := if 1 < data.length then data.drop 1 else data
    dataRows.map (mkObj headerRow)

/-- `String(row[possibleKey])` (JS stringifies `null`). -/
def jsStringOf (v : Option String) : String :=
  match v with
  | some s => s
  | none => "null"

/-- `loadLeadsStep`'s per-object lead extraction; `idx` is the position in
`dataObjects` and the lead is attributed to sheet row `idx + 2`. -/
def mkLeadAt (idx : Nat) (row : Obj) : Lead :=
  let emailKey := findColumn row ["email", "e-mail", "mail"]
  let companyKey := findColumn row ["company", "empresa", "company name"]
  let scoreKey := findColumn row ["score", "score (0-100)", "lead score", "pontuação"]
  let possibleKey := findColumn row ["possible client", "possible client?", "possível cliente"]
  let messageKey := findColumn row ["personalized message", "message", "mensagem"]
  let summaryKey := findColumn row ["sdr summary", "summary", "resumo"]
  let industryKey := findColumn row ["industry", "sector", "setor", "indústria"]
  let score : Option Nat :=
    if scoreKey.isSome && jsTruthyStr (scoreKey.bind (objGet row)) then
      jsParseInt ((scoreKey.bind (objGet row)).getD "")
    else if possibleKey.isSome && jsTruthyStr (possibleKey.bind (objGet row)) then
      labeledNumMatch "Score:".toList (jsStringOf (possibleKey.bind (objGet row))).toList
    else none
  let possibleClientRaw :=
    match possibleKey with
    | some k => jsStringOf (objGet row k)
    | none => ""
  let isPossibleClient :=
    if jsIncludes (jsToUpper possibleClientRaw) "YES" then some "YES"
    else if jsIncludes (jsToUpper possibleClientRaw) "NO" then some "NO"
    else none
  { rowNumber := idx + 2
    email := emailKey.bind (objGet row)
    companyName :=
      match companyKey with
      | some k => objGet row k
      | none => some ("Lead " ++ toString (idx + 1))
    score := score
    isPossibleClient := isPossibleClient
    message := messageKey.bind (objGet row)
    summary := summaryKey.bind (objGet row)
    industry := industryKey.bind (objGet row) }

/-- `loadLeadsStep`: parse the sheet and number the parsed leads
consecutively from row 2. -/
def loadLeads (sheet : List (List String)) : List Lead :=
  (readFullObjects sheet).mapIdx mkLeadAt

/-! ### `applyFiltersStep` -/

inductive FilterSel where
  | all | possibleClients | highScore | mediumScore | largeCompanies | techSector | custom
deriving DecidableEq, Repr

/-- The step's resume payload. -/
structure ResumeFilter where
  selectedFilter : FilterSel
  customMinScore : Option Nat
  customMaxScore : Option Nat
  customIndustry : Option String
  onlyWithEmail : Option Bool
deriving Repr

/-- `detectCompanySize` (an empty or missing summary is falsy → "unknown"). -/
def detectCompanySize (summary : Option String) : String :=
  if !jsTruthyStr summary then "unknown"
  else
    let ls := jsToLower (summary.getD "")
    if jsIncludes ls "enterprise" || jsIncludes ls "large" || jsIncludes ls "fortune" then
      "large"
    else if jsIncludes ls "startup" || jsIncludes ls "small" then "small"
    else "medium"

/-- The tech-sector predicate of the `tech-sector` branch. -/
def techPred (l : Lead) : Bool :=
  let industry := jsToLower (l.industry.getD "")
  let summary := jsToLower (l.summary.getD "")
  jsIncludes industry "tech" || jsIncludes industry "software" || jsIncludes industry "saas" ||
    jsIncludes summary "technology" || jsIncludes summary "software" || jsIncludes summary "saas"

/-- `applyFiltersStep`'s filtering: every branch starts from the base
filter `l.email && l.message`, then the selected criterion, then the
optional `onlyWithEmail` refinement, then the type-narrowing filter. -/
def applyFilters (resume : ResumeFilter) (leads : List Lead) : List Lead :=
  let base := leads.filter fun l => jsTruthyStr l.email && jsTruthyStr l.message
  let filtered :=
    match resume.selectedFilter with
    | .all => base
    | .possibleClients => base.filter fun l => l.isPossibleClient == some "YES"
    | .highScore =>
      base.filter fun l => jsTruthyNat l.score && decide (70 ≤ l.score.getD 0)
    | .mediumScore =>
      base.filter fun l =>
        jsTruthyNat l.score && decide (50 ≤ l.score.getD 0) && decide (l.score.getD 0 < 70)
    | .largeCompanies => base.filter fun l => detectCompanySize l.summary == "large"
    | .techSector => base.filter techPred
    | .custom =>
      let minScore := jsOrNat resume.customMinScore 0
      let maxScore := jsOrNat resume.customMaxScore 100
      let f1 := base.filter fun (l : Lead) =>
        jsTruthyNat l.score && decide (minScore ≤ l.score.getD 0) &&
          decide (l.score.getD 0 ≤ maxScore)
      if jsTruthyStr resume.customIndustry then
        f1.filter fun (l : Lead) =>
          jsIncludes (jsToLower (l.industry.getD "")) (jsToLower (resume.customIndustry.getD "")) ||
            jsIncludes (jsToLower (l.summary.getD "")) (jsToLower (resume.customIndustry.getD ""))
      else f1
  let filtered2 :=
    if resume.onlyWithEmail.getD false then filtered.filter fun l => jsTruthyStr l.email
    else filtered
  filtered2.filter fun l => l.email.isSome && l.message.isSome

/-! ### `sendEmailsStep` -/

/-- The gmail-sender tool's reply (it catches transport errors internally:
`success: false` plus an error string, never a throw). -/
structure SendToolOut where
  success : Bool
  messageId : Option String
  error : Option String

/-- The mail transport: reply for a given lead row and attempt. -/
structure SendEnv where
  send : Nat → Nat → SendToolOut

/-- One entry of `sendEmailsStep`'s `results`. -/
structure SendResult where
  rowNumber : Nat
  email : Option String
  companyName : Option String
  sent : Bool
  messageId : Option String
  error : Option String
deriving DecidableEq, Repr

/-- The retry loop of `sendSingleEmail` (`MAX_RETRIES = 2`): a falsy
`sendResult.success` throws `sendResult?.error || 'Unknown error'`; between
attempts sleep `2000 * attempt`; after the second failure record a failure
with `lastError?.message || 'Failed after retries'`. -/
def sendAttemptGo (env : SendEnv) (l : Lead) (k : Nat) : List Ev × SendResult :=
  let out := env.send l.rowNumber k
  if out.success then
    ([.sendCall l.rowNumber k],
     { rowNumber := l.rowNumber, email := l.email, companyName := l.companyName,
       sent := true, messageId := out.messageId, error := none })
  else
    let e := jsOrOptStr out.error "Unknown error"
    if h : k < 2 then
      let (evs, res) := sendAttemptGo env l (k + 1)
      ([.sendCall l.rowNumber k, .sleep (2000 * k)] ++ evs, res)
    else
      ([.sendCall l.rowNumber k],
       { rowNumber := l.rowNumber, email := l.email, companyName := l.companyName,
         sent := false, messageId := none,
         error := some (jsOrStr e "Failed after retries") })
termination_by 2 - k

/-- `sendSingleEmail(lead, delayMs)`: stagger sleep, then the retry loop. -/
def sendSingleTrace (env : SendEnv) (l : Lead) (delay : Nat) : List Ev × SendResult :=
  ((if 0 < delay then [Ev.sleep delay] else []) ++ (sendAttemptGo env l 1).1,
   (sendAttemptGo env l 1).2)

/-- The outcome of sending to one lead (independent of its stagger delay). -/
def sendOutcome (env : SendEnv) (l : Lead) : SendResult := (sendAttemptGo env l 1).2

/-- Results of one batch, in array order (`Promise.all` preserves order);
task `i` is started with delay `i * STAGGER_DELAY` (= `i * 200` ms). -/
def batchResults (env : SendEnv) (b : List Lead) : List SendResult :=
  b.mapIdx fun i l => (sendSingleTrace env l (i * 200)).2

/-- Events of one batch under the sequential schedule. -/
def batchTrace (env : SendEnv) (b : List Lead) : List Ev :=
  (b.mapIdx fun i l => (sendSingleTrace env l (i * 200)).1).flatten

/-- The batch loop: a fixed 3000 ms sleep after every batch except the last
(`if (i + BATCH_SIZE < filteredLeads.length)`). -/
def sendBatchesTrace (env : SendEnv) : List (List Lead) → List Ev
  | [] => []
  | [b] => batchTrace env b
  | b :: b' :: rest => batchTrace env b ++ [.sleep 3000] ++ sendBatchesTrace env (b' :: rest)

structure SendOutput where
  totalSent : Nat
  totalFailed : Nat
  results : List SendResult
deriving DecidableEq, Repr

/-- `sendEmailsStep`: batches of `BATCH_SIZE = 50`, per-batch staggered
sends, counters aggregated per result. -/
def sendEmails (env : SendEnv) (leads : List Lead) : SendOutput :=
  let batches := chunksOf 50 leads
  let results := (batches.map (batchResults env)).flatten
  let counts := results.foldl
    (fun (p : Nat × Nat) r => if r.sent then (p.1 + 1, p.2) else (p.1, p.2 + 1)) (0, 0)
  { totalSent := counts.1, totalFailed := counts.2, results := results }

/-- Full event trace of `sendEmailsStep` (sequential schedule). -/
def sendEmailsTrace (env : SendEnv) (leads : List Lead) : List Ev :=
  sendBatchesTrace env (chunksOf 50 leads)

/-! ### `updateSendStatusStep` -/

/-- The row store behind the sheets-writer tool, and the date the step
stamps (`new Date().toISOString().split('T')[0]`). -/
structure StoreEnv where
  store : String → List (List String) → Except String Unit
  today : String

/-- The sheets-writer tool call: it catches a store rejection internally and
reports it as `success: false` — it never throws into the caller. -/
def writerExecute (senv : StoreEnv) (range : String) (values : List (List String)) : Bool :=
  match senv.store range values with
  | .ok _ => true
  | .error _ => false

/-- The status text written back per result. -/
def statusText (r : SendResult) : String :=
  if r.sent then
    "✅ Sent" ++
      (if jsTruthyStr r.messageId then " (" ++ (r.messageId.getD "").take 10 ++ "...)" else "")
  else "❌ Failed: " ++ jsOrOptStr r.error "Unknown error"

/-- The fixed status/date columns G and H at the result's row number. -/
def statusRange (sheetName : String) (row : Nat) : String :=
  sheetName ++ "!G" ++ toString row ++ ":H" ++ toString row

structure UpdateOutput where
  totalSent : Nat
  totalFailed : Nat
  results : List SendResult
  sheetUpdated : Bool
deriving DecidableEq, Repr

/-- `updateSendStatusStep`: build one G:H write per result and issue them
sequentially in chunks of 100.  Each call's `success` flag is ignored, and
since the writer tool never throws, the step's `catch` branch (which would
return `sheetUpdated: false`) is unreachable: the step always returns the
unchanged results with `sheetUpdated: true`. -/
def updateSendStatus (senv : StoreEnv) (sheetName : String)
    (results : List SendResult) (totalSent totalFailed : Nat) : UpdateOutput :=
  let writeData := results.map fun r =>
    (statusRange sheetName r.rowNumber, [[statusText r, senv.today]])
  let _ := (chunksOf 100 writeData).map fun batch =>
    batch.map fun w => writerExecute senv w.1 w.2
  { totalSent := totalSent, totalFailed := totalFailed, results := results,
    sheetUpdated := true }

/-! ### The two A1-notation helpers -/

/-- `colIndexToA1` of `lead-research-workflow.ts` (1-based):
`for (; colIdx > 0; colIdx = Math.floor((colIdx - 1) / 26))`
prepending `chr((colIdx - 1) % 26 + 65)`. -/
def colIndexToA1 : Nat → String
  | 0 => ""
  | n + 1 => colIndexToA1 (n / 26) ++ String.singleton (Char.ofNat (n % 26 + 65))
decreasing_by exact Nat.lt_succ_of_le (Nat.div_le_self n 26)

/-- `colIndexToA1` of the dispatch workflow (0-based, over JS numbers that
go negative to stop): `for (; colIdx >= 0; colIdx = Math.floor(colIdx / 26) - 1)`
prepending `chr(colIdx % 26 + 65)`. -/
def colIndexToA1Dispatch (i : Int) : String :=
  if h : i < 0 then ""
  else colIndexToA1Dispatch (i / 26 - 1) ++
    String.singleton (Char.ofNat ((i % 26).toNat + 65))
termination_by (i + 1).toNat
decreasing_by
  have hi : 0 ≤ i := Int.not_lt.mp h
  have hdiv : i / 26 ≤ i := Int.ediv_le_self 26 hi
  omega

/-- The sleeps occurring in a trace, in order. -/
def sleepsOf (t : List Ev) : List Nat :=
  t.filterMap fun e =>
    match e with
    | .sleep ms => some ms
    | _ => none

/-- The ordering realised by the stable descending-score sort on a result
list whose original order is ascending in row number: scores strictly
descending, ties in ascending row order. -/
def descLex (a b : RowResult) : Prop :=
  b.score < a.score ∨ (a.score = b.score ∧ a.rowNumber < b.rowNumber)

/-! ## Concrete fixtures used by witnesses and counterexamples -/

/-- A run configuration with the Tavily search tool unavailable. -/
def cfgW : PipeCfg := { companyColumn := "Company", hasTavily := false }

/-- A well-formed oracle reply. -/
def okText : String := "SUMMARY: s SCORE: 80 POSSIBLE CLIENT: YES MESSAGE: m"

/-- An environment in which every read and every scoring call succeeds. -/
def envOk : PipeEnv :=
  { read := fun _ _ => some [("Company", "Acme")]
    search := fun _ _ => .noResult
    gen := fun _ _ => .ok okText }

/-- An environment whose oracle reply has no `SCORE:` section (the qualifies
label is present). -/
def envNoScore : PipeEnv :=
  { read := fun _ _ => some [("Company", "Acme")]
    search := fun _ _ => .noResult
    gen := fun _ _ => .ok "SUMMARY: hi POSSIBLE CLIENT: YES MESSAGE: hello" }

/-- An environment whose oracle reply has neither a `SCORE:` section nor a
qualifies label. -/
def envNoScoreNoLabel : PipeEnv :=
  { read := fun _ _ => some [("Company", "Acme")]
    search := fun _ _ => .noResult
    gen := fun _ _ => .ok "SUMMARY: hi MESSAGE: hello" }

/-- An environment where every read fails (reader reports `success: false`
or a missing row on every attempt). -/
def envReadFail : PipeEnv :=
  { read := fun _ _ => none
    search := fun _ _ => .noResult
    gen := fun _ _ => .ok okText }

/-- A dispatch lead with the given row number and score, carrying an email
and a message. -/
def mkScoredLead (row score : Nat) : Lead :=
  { rowNumber := row, email := some ("lead" ++ toString row ++ "@x.com")
    companyName := some ("Company " ++ toString row), score := some score
    isPossibleClient := some "YES", message := some "Hello there", summary := none,
    industry := none }

/-- The ten leads of the spec's boundary scenario, scores
`[95, 80, 72, 69, 50, 71, 30, 100, 65, 70]`. -/
def c6Leads : List Lead :=
  [mkScoredLead 2 95, mkScoredLead 3 80, mkScoredLead 4 72, mkScoredLead 5 69,
   mkScoredLead 6 50, mkScoredLead 7 71, mkScoredLead 8 30, mkScoredLead 9 100,
   mkScoredLead 10 65, mkScoredLead 11 70]

/-- The `high-score` resume payload. -/
def highScoreResume : ResumeFilter :=
  { selectedFilter := .highScore, customMinScore := none, customMaxScore := none,
    customIndustry := none, onlyWithEmail := none }

/-- A row store that rejects every write. -/
def rejectingStore : StoreEnv :=
  { store := fun _ _ => .error "403: permission denied", today := "2026-10-12" }

/-- Send results of a small dispatch run: row 2 sent, row 3 failed. -/
def c7Results : List SendResult :=
  [{ rowNumber := 2, email := some "a@x.com", companyName := some "Alpha",
     sent := true, messageId := some "mid-1234567890", error := none },
   { rowNumber := 3, email := some "b@y.com", companyName := some "Beta",
     sent := false, messageId := none, error := some "bounced" }]

/-- A sheet whose third physical row is empty: header row, a lead in row 2,
an empty row 3, and a lead in row 4. -/
def c8Sheet : List (List String) :=
  [["Email", "Company", "Personalized Message"],
   ["a@x.com", "Alpha", "mA"],
   [],
   ["b@y.com", "Beta", "mB"]]

/-- A mail transport that accepts every send. -/
def okSendEnv : SendEnv :=
  { send := fun _ _ => { success := true, messageId := some "m-ok", error := none } }

/-- A mail transport that rejects every attempt for row 3 and accepts the
rest. -/
def failRow3SendEnv : SendEnv :=
  { send := fun r _ =>
      if r = 3 then { success := false, messageId := none, error := some "quota exceeded" }
      else { success := true, messageId := some "m-ok", error := none } }

/-! ## Helper lemmas -/

theorem chunksOf_nil (c : Nat) : chunksOf c ([] : List α) = [] := by
  unfold chunksOf; split <;> rfl

theorem chunksOf_zero (h : c = 0) (l : List α) : chunksOf c l = [] := by
  unfold chunksOf; simp [h]

theorem chunksOf_cons (c : Nat) (hc : c ≠ 0) (x : α) (xs : List α) :
    chunksOf c (x :: xs) = (x :: xs).take c :: chunksOf c ((x :: xs).drop c) := by
  conv_lhs => unfold chunksOf
  simp [hc]

/-- Concatenating the chunks gives back the list. -/
theorem chunksOf_join (c : Nat) (hc : 0 < c) (l : List α) :
    (chunksOf c l).flatten = l := by
  induction l using chunksOf.induct c with
  | case1 _ h => exact absurd h (by omega)
  | case2 => simp [chunksOf_nil]
  | case3 hc' x xs ih =>
    rw [chunksOf_cons c hc' x xs]
    simp only [List.flatten_cons, ih]
    exact List.take_append_drop c (x :: xs)

/-- Every chunk has at most `c` elements. -/
theorem chunksOf_length_le (c : Nat) (l : List α) :
    ∀ b ∈ chunksOf c l, b.length ≤ c := by
  induction l using chunksOf.induct c with
  | case1 _ h => simp [chunksOf_zero h]
  | case2 => simp [chunksOf_nil]
  | case3 hc' x xs ih =>
    rw [chunksOf_cons c hc' x xs]
    intro b hb
    rcases List.mem_cons.mp hb with h | h
    · subst h; simpa using List.length_take_le c (x :: xs)
    · exact ih b h

/-- Every chunk except possibly the last has exactly `c` elements. -/
theorem chunksOf_length_eq (c : Nat) (l : List α) :
    ∀ i b, (chunksOf c l).get? i = some b →
      i + 1 < (chunksOf c l).length → b.length = c := by
  induction l using chunksOf.induct c with
  | case1 _ h => simp [chunksOf_zero h]
  | case2 => simp [chunksOf_nil]
  | case3 hc' x xs ih =>
    rw [chunksOf_cons c hc' x xs]
    intro i b hget hlt
    match i with
    | 0 =>
      simp only [List.get?_cons_zero, Option.some_inj] at hget
      subst hget
      simp only [List.length_cons] at hlt
      have hne : chunksOf c ((x :: xs).drop c) ≠ [] := by
        intro h; rw [h] at hlt; simp at hlt
      have hdrop : (x :: xs).drop c ≠ [] := by
        intro h; rw [h, chunksOf_nil] at hne; exact hne rfl
      have : c ≤ (x :: xs).length := by
        by_contra hlen
        push_neg at hlen
        exact hdrop (List.drop_eq_nil_of_le (Nat.le_of_lt hlen))
      simpa [List.length_take] using Nat.min_eq_left this
    | Nat.succ j =>
      simp only [List.get?_cons_succ] at hget
      simp only [List.length_cons, Nat.succ_lt_succ_iff] at hlt
      exact ih j b hget hlt

/-! ### Aggregation lemmas for `processLeads` -/

theorem foldl_stepAccum (l : List RowResult) (a : Accum) :
    (l.foldl stepAccum a).results = a.results ++ l ∧
    (l.foldl stepAccum a).successful = a.successful + (l.countP fun r => r.success) ∧
    (l.foldl stepAccum a).failed = a.failed + (l.countP fun r => !r.success) := by
  induction l generalizing a with
  | nil => simp
  | cons r t ih =>
    obtain ⟨h1, h2, h3⟩ := ih (stepAccum a r)
    refine ⟨?_, ?_, ?_⟩
    · rw [List.foldl_cons, h1]
      simp [stepAccum]
    · rw [List.foldl_cons, h2, List.countP_cons]
      cases hr : r.success <;> simp [stepAccum, hr] <;> omega
    · rw [List.foldl_cons, h3, List.countP_cons]
      cases hr : r.success <;> simp [stepAccum, hr] <;> omega

/-- Closed form of the chunked aggregation: counters and results are those
of the flat row list. -/
theorem processLeads_closed (env : PipeEnv) (cfg : PipeCfg) (N C : Nat) (hC : 0 < C) :
    (processLeads env cfg N C).results = (rowNums N).map (processRow env cfg) ∧
    (processLeads env cfg N C).successful =
      ((rowNums N).map (processRow env cfg)).countP (fun r => r.success) ∧
    (processLeads env cfg N C).failed =
      ((rowNums N).map (processRow env cfg)).countP (fun r => !r.success) := by
  have hfold : ∀ (chunks : List (List Nat)) (a : Accum),
      chunks.foldl (fun acc batch => (batch.map (processRow env cfg)).foldl stepAccum acc) a =
        ((chunks.map (List.map (processRow env cfg))).flatten).foldl stepAccum a := by
    intro chunks
    induction chunks with
    | nil => intro a; simp
    | cons b t ih =>
      intro a
      simp only [List.foldl_cons, List.map_cons, List.flatten_cons, List.foldl_append]
      exact ih _
  have hjoin : ((chunksOf C (rowNums N)).map (List.map (processRow env cfg))).flatten =
      (rowNums N).map (processRow env cfg) := by
    rw [← List.map_flatten, chunksOf_join C hC]
  simp only [processLeads, hfold, hjoin, Accum.init]
  obtain ⟨h1, h2, h3⟩ :=
    foldl_stepAccum ((rowNums N).map (processRow env cfg))
      { successful := 0, failed := 0, possibleClients := 0, totalScore := 0, results := [] }
  refine ⟨?_, ?_, ?_⟩
  · rw [h1]; rfl
  · rw [h2]; exact Nat.zero_add _
  · rw [h3]; exact Nat.zero_add _

/-- A successful attempt's record carries the row number, `success = true`
and no error. -/
theorem attemptRow_ok (env : PipeEnv) (cfg : PipeCfg) (r k : Nat)
    (evs : List Ev) (res : RowResult) (vals : List String)
    (h : attemptRow env cfg r k = (evs, Except.ok (res, vals))) :
    res.rowNumber = r ∧ res.success = true ∧ res.error = none := by
  unfold attemptRow at h
  rcases hread : env.read r k with _ | d <;> rw [hread] at h
  · cases h
  · rcases hgen : env.gen r k with e | t <;> rw [hgen] at h <;> simp at h
    obtain ⟨-, h2, -⟩ := h
    rw [← h2]
    exact ⟨rfl, rfl, rfl⟩

theorem processRowGo_rowNumber (env : PipeEnv) (cfg : PipeCfg) (r : Nat) :
    ∀ k, (processRowGo env cfg r k).2.1.rowNumber = r := by
  intro k
  induction k using processRowGo.induct env cfg r with
  | case1 k evs res vals hatt =>
    obtain ⟨h1, -, -⟩ := attemptRow_ok env cfg r k evs res vals hatt
    rw [processRowGo, hatt]
    exact h1
  | case2 k evs e hk evs' res vals hrec hatt ih =>
    rw [processRowGo, hatt]
    rw [hrec] at ih
    simpa [dif_pos hk, hrec] using ih
  | case3 k evs e hk hatt =>
    rw [processRowGo, hatt]
    simp [dif_neg hk, failResult]

/-- Every row task ends as a genuine success record (no error) or a genuine
failure record (with an error message). -/
theorem processRowGo_cases (env : PipeEnv) (cfg : PipeCfg) (r : Nat) :
    ∀ k, ((processRowGo env cfg r k).2.1.success = true ∧
            (processRowGo env cfg r k).2.1.error = none) ∨
         ((processRowGo env cfg r k).2.1.success = false ∧
            ((processRowGo env cfg r k).2.1.error).isSome) := by
  intro k
  induction k using processRowGo.induct env cfg r with
  | case1 k evs res vals hatt =>
    obtain ⟨-, h2, h3⟩ := attemptRow_ok env cfg r k evs res vals hatt
    rw [processRowGo, hatt]
    exact Or.inl ⟨h2, h3⟩
  | case2 k evs e hk evs' res vals hrec hatt ih =>
    rw [processRowGo, hatt]
    rw [hrec] at ih
    simpa [dif_pos hk, hrec] using ih
  | case3 k evs e hk hatt =>
    rw [processRowGo, hatt]
    simp [dif_neg hk, failResult]

theorem countP_bool_add (l : List α) (p : α → Bool) :
    l.countP p + l.countP (fun a => !p a) = l.length := by
  induction l with
  | nil => simp
  | cons x t ih =>
    rw [List.countP_cons, List.countP_cons]
    cases hx : p x <;> simp [hx] <;> omega

/-! ## Claims -/

/-- **C1.**  After `processAll` completes over `N` rows (rows `2 .. N + 1`)
with any batch size `C`, `1 ≤ C ≤ N`, the returned counters satisfy
`successful + failed = N = totalProcessed`, and the results array contains
exactly one entry per row (in row order), each being either a success record
or a failure record. -/
theorem processLeads_counters_and_results (env : PipeEnv) (cfg : PipeCfg)
    (N C : Nat) (hC1 : 1 ≤ C) (hC2 : C ≤ N) :
    (processLeads env cfg N C).successful + (processLeads env cfg N C).failed = N ∧
    (processLeads env cfg N C).totalProcessed = N ∧
    (processLeads env cfg N C).results.map (fun r => r.rowNumber) = rowNums N ∧
    ∀ r ∈ (processLeads env cfg N C).results,
      (r.success = true ∧ r.error = none) ∨ (r.success = false ∧ r.error.isSome) := by
  obtain ⟨hres, hsucc, hfail⟩ := processLeads_closed env cfg N C (by omega)
  refine ⟨?_, ?_, ?_, ?_⟩
  · rw [hsucc, hfail, countP_bool_add]
    simp [rowNums]
  · simp [processLeads]
  · rw [hres, List.map_map]
    have : ∀ x ∈ rowNums N,
        ((fun r => r.rowNumber) ∘ processRow env cfg) x = id x := by
      intro x _
      exact processRowGo_rowNumber env cfg x 1
    rw [List.map_congr_left this, List.map_id]
  · intro r hr
    rw [hres] at hr
    obtain ⟨x, -, hx⟩ := List.mem_map.mp hr
    rw [← hx]
    exact processRowGo_cases env cfg x 1

/-- Witness for C1: three rows, batch size 2, an environment where row 2
succeeds and the Tavily tool is absent. -/
theorem processLeads_counters_and_results_witness :
    1 ≤ 2 ∧ 2 ≤ 3 ∧
    ((processLeads
        { read := fun _ _ => some [("Company", "Acme")]
          search := fun _ _ => .noResult
          gen := fun r _ => if r = 2 then
              .ok "SUMMARY: s SCORE: 80 POSSIBLE CLIENT: YES MESSAGE: m"
            else .error "LLM unavailable" }
        { companyColumn := "Company", hasTavily := false } 3 2).successful +
      (processLeads
        { read := fun _ _ => some [("Company", "Acme")]
          search := fun _ _ => .noResult
          gen := fun r _ => if r = 2 then
              .ok "SUMMARY: s SCORE: 80 POSSIBLE CLIENT: YES MESSAGE: m"
            else .error "LLM unavailable" }
        { companyColumn := "Company", hasTavily := false } 3 2).failed = 3 ∧
      (processLeads
        { read := fun _ _ => some [("Company", "Acme")]
          search := fun _ _ => .noResult
          gen := fun r _ => if r = 2 then
              .ok "SUMMARY: s SCORE: 80 POSSIBLE CLIENT: YES MESSAGE: m"
            else .error "LLM unavailable" }
        { companyColumn := "Company", hasTavily := false } 3 2).totalProcessed = 3 ∧
      (processLeads
        { read := fun _ _ => some [("Company", "Acme")]
          search := fun _ _ => .noResult
          gen := fun r _ => if r = 2 then
              .ok "SUMMARY: s SCORE: 80 POSSIBLE CLIENT: YES MESSAGE: m"
            else .error "LLM unavailable" }
        { companyColumn := "Company", hasTavily := false } 3 2).results.map
          (fun r => r.rowNumber) = rowNums 3 ∧
      ∀ r ∈ (processLeads
        { read := fun _ _ => some [("Company", "Acme")]
          search := fun _ _ => .noResult
          gen := fun r _ => if r = 2 then
              .ok "SUMMARY: s SCORE: 80 POSSIBLE CLIENT: YES MESSAGE: m"
            else .error "LLM unavailable" }
        { companyColumn := "Company", hasTavily := false } 3 2).results,
        (r.success = true ∧ r.error = none) ∨ (r.success = false ∧ r.error.isSome)) :=
  ⟨by decide, by decide,
    processLeads_counters_and_results
      { read := fun _ _ => some [("Company", "Acme")]
        search := fun _ _ => .noResult
        gen := fun r _ => if r = 2 then
            .ok "SUMMARY: s SCORE: 80 POSSIBLE CLIENT: YES MESSAGE: m"
          else .error "LLM unavailable" }
      { companyColumn := "Company", hasTavily := false } 3 2 (by decide) (by decide)⟩

/-! ### C10 — the two A1 helpers -/

/-- The 1-based pipeline helper and the 0-based dispatch helper agree up to
the index shift, for every natural index. -/
theorem colIndexToA1_shift : ∀ n : Nat, colIndexToA1 n = colIndexToA1Dispatch ((n : Int) - 1) := by
  intro n
  induction n using Nat.strong_induction_on with
  | _ n ih =>
    match n with
    | 0 =>
      rw [colIndexToA1, colIndexToA1Dispatch]
      norm_num
    | m + 1 =>
      rw [colIndexToA1]
      have hm : ((m + 1 : Nat) : Int) - 1 = (m : Int) := by push_cast; ring
      rw [hm, colIndexToA1Dispatch]
      have h0 : ¬ ((m : Int) < 0) := by omega
      rw [dif_neg h0]
      have hdiv : ((m / 26 : Nat) : Int) - 1 = (m : Int) / 26 - 1 := by
        have : ((m / 26 : Nat) : Int) = (m : Int) / 26 := by omega
        rw [this]
      have hrec := ih (m / 26) (Nat.lt_succ_of_le (Nat.div_le_self m 26))
      rw [hrec, hdiv]
      have hmod : ((m : Int) % 26).toNat = m % 26 := by omega
      rw [hmod]

/-- **C10.**  The pipeline's `colIndexToA1` (1-based) and the dispatch
workflow's `colIndexToA1` (0-based) are equivalent up to the index base:
for every `n ≥ 1`, `colIndexToA1 n = colIndexToA1Dispatch (n - 1)`, and both
compute the bijective base-26 column string
(1 → "A", 26 → "Z", 27 → "AA", 52 → "AZ", 703 → "AAA"). -/
theorem colIndexToA1_equiv (n : Nat) (h : 1 ≤ n) :
    colIndexToA1 n = colIndexToA1Dispatch ((n : Int) - 1) ∧
    colIndexToA1 1 = "A" ∧ colIndexToA1 26 = "Z" ∧ colIndexToA1 27 = "AA" ∧
    colIndexToA1 52 = "AZ" ∧ colIndexToA1 53 = "BA" ∧ colIndexToA1 703 = "AAA" ∧
    colIndexToA1Dispatch 0 = "A" ∧ colIndexToA1Dispatch 25 = "Z" ∧
    colIndexToA1Dispatch 26 = "AA" := by
  refine ⟨colIndexToA1_shift n, ?_, ?_, ?_, ?_, ?_, ?_, ?_, ?_, ?_⟩
  all_goals first
    | (simp [colIndexToA1]; rfl)
    | (simp [colIndexToA1Dispatch]; rfl)

/-- Witness for C10 at `n = 27`. -/
theorem colIndexToA1_equiv_witness :
    1 ≤ 27 ∧
    (colIndexToA1 27 = colIndexToA1Dispatch ((27 : Nat) - 1 : Int) ∧
     colIndexToA1 1 = "A" ∧ colIndexToA1 26 = "Z" ∧ colIndexToA1 27 = "AA" ∧
     colIndexToA1 52 = "AZ" ∧ colIndexToA1 53 = "BA" ∧ colIndexToA1 703 = "AAA" ∧
     colIndexToA1Dispatch 0 = "A" ∧ colIndexToA1Dispatch 25 = "Z" ∧
     colIndexToA1Dispatch 26 = "AA") :=
  ⟨by decide, colIndexToA1_equiv 27 (by decide)⟩

/-! ### C6 — the dispatch high-score filter -/

/-- **C6.**  The `high-score` filter has an inclusive boundary at 70: over
the ten scenario rows with scores `[95, 80, 72, 69, 50, 71, 30, 100, 65, 70]`
(all having an email and a message) it keeps exactly the rows with scores
`{95, 80, 72, 71, 100, 70}`; and every filter criterion first excludes rows
lacking an email address or a generated message. -/
theorem applyFilters_highScore_boundary :
    ((applyFilters highScoreResume c6Leads).map fun l => l.score.getD 0) =
      [95, 80, 72, 71, 100, 70] ∧
    ((applyFilters highScoreResume c6Leads).map fun l => l.rowNumber) = [2, 3, 4, 7, 9, 11] ∧
    ∀ (resume : ResumeFilter) (leads : List Lead) (l : Lead),
      l ∈ applyFilters resume leads →
        jsTruthyStr l.email = true ∧ jsTruthyStr l.message = true := by
  have key : ∀ (L : List Lead) (l : Lead),
      l ∈ L.filter (fun x => jsTruthyStr x.email && jsTruthyStr x.message) →
      jsTruthyStr l.email = true ∧ jsTruthyStr l.message = true := by
    intro L l hL
    have h2 := (List.mem_filter.mp hL).2
    exact Bool.and_eq_true _ _ |>.mp h2
  refine ⟨by decide, by decide, ?_⟩
  intro resume leads l hl
  simp only [applyFilters] at hl
  repeat' first
    | exact key _ _ hl
    | replace hl := (List.mem_filter.mp hl).1
    | split at hl

/-- Witness for C6's universally quantified part: the row with score 70 is
in the filtered output and indeed carries an email and a message. -/
theorem applyFilters_highScore_boundary_witness :
    mkScoredLead 11 70 ∈ applyFilters highScoreResume c6Leads ∧
    jsTruthyStr (mkScoredLead 11 70).email = true ∧
    jsTruthyStr (mkScoredLead 11 70).message = true :=
  ⟨by decide,
   (applyFilters_highScore_boundary.2.2 highScoreResume c6Leads (mkScoredLead 11 70)
      (by decide)).1,
   (applyFilters_highScore_boundary.2.2 highScoreResume c6Leads (mkScoredLead 11 70)
      (by decide)).2⟩

/-! ### C7 — write-back failure in `updateSendStatusStep` -/

/-- **C7** (code evaluated at the failing input).  With a row store that
rejects every status write, the dispatch run does not error and the send
results pass through unchanged (every sent email stays recorded as sent with
its message id) — but, contrary to the claim, the step still reports
`sheetUpdated = true`: the sheets-writer wrapper catches the rejection and
returns `success: false`, which the step never inspects, so its `catch`
branch (the only source of `sheetUpdated = false`) is unreachable. -/
theorem updateSendStatus_swallows_rejection :
    (∀ (range : String) (values : List (List String)),
        writerExecute rejectingStore range values = false) ∧
    (updateSendStatus rejectingStore "Sheet1" c7Results 1 1).results = c7Results ∧
    (updateSendStatus rejectingStore "Sheet1" c7Results 1 1).totalSent = 1 ∧
    (updateSendStatus rejectingStore "Sheet1" c7Results 1 1).sheetUpdated = true := by
  refine ⟨?_, rfl, rfl, rfl⟩
  intro range values
  simp [writerExecute, rejectingStore]

/-! ### C5 — batching, staggering and failure isolation in `sendEmailsStep` -/

theorem batchResults_eq_map (env : SendEnv) (b : List Lead) :
    batchResults env b = b.map (sendOutcome env) := by
  unfold batchResults
  rw [List.mapIdx_eq_enum_map]
  rw [show (Function.uncurry fun i l => (sendSingleTrace env l (i * 200)).2) =
      (sendOutcome env) ∘ Prod.snd from rfl]
  rw [← List.map_map, List.enum_map_snd]

/-- The results of `sendEmailsStep` are exactly the per-lead outcomes, one
per filtered lead in order: no batch boundary and no failed sibling affects
any other lead's result. -/
theorem sendEmails_results_eq_map (env : SendEnv) (leads : List Lead) :
    (sendEmails env leads).results = leads.map (sendOutcome env) := by
  simp only [sendEmails]
  rw [List.map_congr_left fun b _ => batchResults_eq_map env b]
  rw [← List.map_flatten, chunksOf_join 50 (by norm_num)]

theorem sendAttemptGo_head (env : SendEnv) (l : Lead) :
    ∃ tail, (sendAttemptGo env l 1).1 = Ev.sendCall l.rowNumber 1 :: tail := by
  rw [sendAttemptGo]
  split
  · exact ⟨[], rfl⟩
  · rw [dif_pos (by norm_num : (1 : Nat) < 2)]
    exact ⟨_, rfl⟩

/-- **C5.**  `sendAll` partitions the filtered leads into batches of 50
(concatenation restores the list; every batch has ≤ 50 leads and every
non-final batch exactly 50); the result list is the per-lead outcome map, so
a send failure within a batch does not affect the other sends of that batch
or later batches; within a batch, task `i` sleeps `i × 200` ms before its
first send attempt; and a fixed 3000 ms sleep separates consecutive batches,
with none after the last. -/
theorem sendEmails_batching_stagger (env : SendEnv) (leads : List Lead) :
    (chunksOf 50 leads).flatten = leads ∧
    (∀ b ∈ chunksOf 50 leads, b.length ≤ 50) ∧
    (∀ i b, (chunksOf 50 leads).get? i = some b →
       i + 1 < (chunksOf 50 leads).length → b.length = 50) ∧
    (sendEmails env leads).results = leads.map (sendOutcome env) ∧
    (∀ b ∈ chunksOf 50 leads, batchTrace env b =
       (b.mapIdx fun i l => (sendSingleTrace env l (i * 200)).1).flatten) ∧
    (∀ (l : Lead) (d : Nat), 0 < d →
       ∃ rest, (sendSingleTrace env l d).1 =
         Ev.sleep d :: Ev.sendCall l.rowNumber 1 :: rest) ∧
    sendEmailsTrace env leads = sendBatchesTrace env (chunksOf 50 leads) ∧
    (∀ b b' bs, sendBatchesTrace env (b :: b' :: bs) =
       batchTrace env b ++ [Ev.sleep 3000] ++ sendBatchesTrace env (b' :: bs)) ∧
    (∀ b, sendBatchesTrace env [b] = batchTrace env b) := by
  refine ⟨chunksOf_join 50 (by norm_num) leads, chunksOf_length_le 50 leads,
    chunksOf_length_eq 50 leads, sendEmails_results_eq_map env leads,
    fun b _ => rfl, ?_, rfl, fun b b' bs => rfl, fun b => rfl⟩
  intro l d hd
  obtain ⟨tail, htail⟩ := sendAttemptGo_head env l
  refine ⟨tail, ?_⟩
  unfold sendSingleTrace
  rw [if_pos hd, htail]
  rfl

/-- Witness for C5: three leads, the transport rejecting every attempt for
row 3; rows 2 and 4 are still sent, row 3 alone fails, and task index 1
staggers by 200 ms before its first attempt. -/
theorem sendEmails_batching_stagger_witness :
    ((sendEmails failRow3SendEnv [mkScoredLead 2 95, mkScoredLead 3 80, mkScoredLead 4 72]).results.map
        fun r => (r.rowNumber, r.sent)) = [(2, true), (3, false), (4, true)] ∧
    (∃ rest, (sendSingleTrace failRow3SendEnv (mkScoredLead 3 80) (1 * 200)).1 =
        Ev.sleep (1 * 200) :: Ev.sendCall 3 1 :: rest) := by
  constructor
  · rw [(sendEmails_batching_stagger failRow3SendEnv
      [mkScoredLead 2 95, mkScoredLead 3 80, mkScoredLead 4 72]).2.2.2.1]
    simp [sendOutcome, sendAttemptGo, failRow3SendEnv, mkScoredLead]
  · exact (sendEmails_batching_stagger failRow3SendEnv []).2.2.2.2.2.1
      (mkScoredLead 3 80) (1 * 200) (by norm_num)

/-! ### C8 — row attribution -/

/-- **C8** (code evaluated at the failing input).  The dispatch pass loads
the sheet with `skipEmptyRows: true` and then attributes each parsed lead to
sheet row `index + 2` among the *remaining* rows.  On a sheet whose physical
row 3 is empty, the lead physically read from sheet row 4 (`b@y.com`, cell
list at index 3) is attributed `rowNumber = 3`; its send result carries that
number, and the status write of `updateSendStatusStep` therefore targets
range `G3:H3` — the empty sheet row 3 — instead of row 4 the lead was read
from. -/
theorem loadLeads_misattributes_after_empty_row :
    ((loadLeads c8Sheet).map fun l => (l.rowNumber, l.email, l.message)) =
      [(2, some "a@x.com", some "mA"), (3, some "b@y.com", some "mB")] ∧
    c8Sheet.get? 3 = some ["b@y.com", "Beta", "mB"] ∧
    ((sendEmails okSendEnv (loadLeads c8Sheet)).results.map
        fun r => (r.rowNumber, r.sent)) = [(2, true), (3, true)] ∧
    ((sendEmails okSendEnv (loadLeads c8Sheet)).results.map
        fun r => statusRange "Sheet1" r.rowNumber) = ["Sheet1!G2:H2", "Sheet1!G3:H3"] := by
  have hload : loadLeads c8Sheet =
      [{ rowNumber := 2, email := some "a@x.com", companyName := some "Alpha",
         score := none, isPossibleClient := none, message := some "mA",
         summary := none, industry := none },
       { rowNumber := 3, email := some "b@y.com", companyName := some "Beta",
         score := none, isPossibleClient := none, message := some "mB",
         summary := none, industry := none }] := by decide
  refine ⟨by decide, by decide, ?_, ?_⟩ <;>
    rw [sendEmails_results_eq_map, hload] <;>
    simp [sendOutcome, sendAttemptGo, okSendEnv, statusRange] <;>
    exact ⟨by decide, by decide⟩

/-! ### C4 — oracle replies without a `SCORE:` section -/

/-- **C4, counterexample.**  For an oracle reply with no `SCORE:` section the
row does get the default score 50, but it is counted in the ordinary
`successful` counter — the summary (faithful to the step's output schema:
`totalProcessed`, `successful`, `failed`, `possibleClients`, `averageScore`,
`results`) has no "degraded" counter to increment. -/
theorem processLeads_no_degraded_counter :
    scoreMatch "SUMMARY: hi POSSIBLE CLIENT: YES MESSAGE: hello" = none ∧
    (processLeads envNoScore cfgW 1 1).successful = 1 ∧
    (processLeads envNoScore cfgW 1 1).failed = 0 ∧
    ((processLeads envNoScore cfgW 1 1).results.map fun r => (r.success, r.score)) =
      [(true, 50)] := by
  refine ⟨by decide, ?_, ?_, ?_⟩ <;>
    simp [processLeads, rowNums, chunksOf_cons, chunksOf_nil, processRow, processRowGo,
      attemptRow, stepAccum, Accum.init, envNoScore, cfgW, List.range'] <;>
    decide

/-- **C4, amended.**  If the first attempt's read succeeds and the oracle
reply `t` parses with no `SCORE:` section and no qualifies label, the row's
result uses the default score 50, derives `isPossibleClient = "NO"` from
that default (50 < 60), and the row is recorded as an ordinary success
(counted in `successful`, not `failed`; no degraded counter exists). -/
theorem processRow_missing_score_defaults (env : PipeEnv) (cfg : PipeCfg)
    (r : Nat) (d : RowData) (t : String)
    (hread : env.read r 1 = some d) (hgen : env.gen r 1 = .ok t)
    (hscore : scoreMatch t = none) (hpos : possibleMatch t = none) :
    (processRow env cfg r).success = true ∧ (processRow env cfg r).score = 50 ∧
    (processRow env cfg r).isPossibleClient = "NO" ∧
    (processRow env cfg r).error = none := by
  have hatt : attemptRow env cfg r 1 =
      ([.readCall r 1] ++ (if cfg.hasTavily then [Ev.searchCall r 1] else []) ++
         [.genCall r 1],
       Except.ok
        ({ success := true, rowNumber := r,
           companyName := jsOrOptStr (rowLookup d cfg.companyColumn) "Unknown Company",
           score := parsedScore t,
           isPossibleClient := parsedPossible t (parsedScore t), error := none },
         [parsedSummary t, toString (parsedScore t),
          parsedPossible t (parsedScore t), parsedMessage t])) := by
    unfold attemptRow
    rw [hread, hgen]
  unfold processRow
  rw [processRowGo, hatt]
  simp [parsedScore, hscore, parsedPossible, hpos]

/-- Witness for C4's amended claim, with an oracle reply missing both the
score section and the qualifies label. -/
theorem processRow_missing_score_defaults_witness :
    envNoScoreNoLabel.read 2 1 = some [("Company", "Acme")] ∧
    envNoScoreNoLabel.gen 2 1 = .ok "SUMMARY: hi MESSAGE: hello" ∧
    scoreMatch "SUMMARY: hi MESSAGE: hello" = none ∧
    possibleMatch "SUMMARY: hi MESSAGE: hello" = none ∧
    ((processRow envNoScoreNoLabel cfgW 2).success = true ∧
     (processRow envNoScoreNoLabel cfgW 2).score = 50 ∧
     (processRow envNoScoreNoLabel cfgW 2).isPossibleClient = "NO" ∧
     (processRow envNoScoreNoLabel cfgW 2).error = none) :=
  ⟨rfl, rfl, by decide, by decide,
   processRow_missing_score_defaults envNoScoreNoLabel cfgW 2 [("Company", "Acme")]
     "SUMMARY: hi MESSAGE: hello" rfl rfl (by decide) (by decide)⟩

/-! ### C3 — per-row retries with backoff, failure isolation -/

theorem sleepsOf_append (a b : List Ev) : sleepsOf (a ++ b) = sleepsOf a ++ sleepsOf b :=
  List.filterMap_append a b _

theorem sleepsOf_single (d : Nat) : sleepsOf [Ev.sleep d] = [d] := rfl

/-- The events of one attempt contain no sleeps (sleeps only separate
attempts). -/
theorem attemptRow_no_sleep (env : PipeEnv) (cfg : PipeCfg) (r k : Nat) :
    sleepsOf (attemptRow env cfg r k).1 = [] := by
  unfold attemptRow
  rcases env.read r k with _ | d
  · simp [sleepsOf]
  · rcases env.gen r k with e | t <;> cases cfg.hasTavily <;> simp [sleepsOf]

/-- **C3.**  A row task whose three attempts all raise exceptions sleeps
`2000 × attempt` ms between consecutive attempts (so `[2000, 4000]`), is
then recorded as a failed result carrying the last error message, and the
remaining rows of the run are still processed: the run's result list always
contains each row's own outcome, independent of the other rows. -/
theorem processRow_retries_and_isolation (env : PipeEnv) (cfg : PipeCfg)
    (r : Nat) (e1 e2 e3 : String)
    (h1 : (attemptRow env cfg r 1).2 = .error e1)
    (h2 : (attemptRow env cfg r 2).2 = .error e2)
    (h3 : (attemptRow env cfg r 3).2 = .error e3)
    (he3 : e3 ≠ "") :
    processRow env cfg r = failResult r e3 ∧
    (processRow env cfg r).success = false ∧
    (processRow env cfg r).error = some e3 ∧
    sleepsOf (processRowGo env cfg r 1).1 = [2000 * 1, 2000 * 2] ∧
    ∀ N C, 0 < C →
      (processLeads env cfg N C).results = (rowNums N).map (processRow env cfg) := by
  have ha1 : attemptRow env cfg r 1 = ((attemptRow env cfg r 1).1, Except.error e1) := by
    rw [← h1]
  have ha2 : attemptRow env cfg r 2 = ((attemptRow env cfg r 2).1, Except.error e2) := by
    rw [← h2]
  have ha3 : attemptRow env cfg r 3 = ((attemptRow env cfg r 3).1, Except.error e3) := by
    rw [← h3]
  have hgo3 : processRowGo env cfg r 3 = ((attemptRow env cfg r 3).1, failResult r e3, none) := by
    rw [processRowGo, ha3]; simp
  have hgo2 : processRowGo env cfg r 2 =
      ((attemptRow env cfg r 2).1 ++ [.sleep (2000 * 2)] ++ (attemptRow env cfg r 3).1,
       failResult r e3, none) := by
    rw [processRowGo, ha2]
    simp [hgo3]
  have hgo1 : processRowGo env cfg r 1 =
      ((attemptRow env cfg r 1).1 ++ [.sleep (2000 * 1)] ++
         ((attemptRow env cfg r 2).1 ++ [.sleep (2000 * 2)] ++ (attemptRow env cfg r 3).1),
       failResult r e3, none) := by
    rw [processRowGo, ha1]
    simp [hgo2]
  refine ⟨?_, ?_, ?_, ?_, ?_⟩
  · unfold processRow; rw [hgo1]
  · unfold processRow; rw [hgo1]; simp [failResult]
  · unfold processRow; rw [hgo1]; simp [failResult, jsOrStr, he3]
  · rw [hgo1]
    simp only [sleepsOf_append, sleepsOf_single, attemptRow_no_sleep env cfg r]
    rfl
  · intro N C hC
    exact (processLeads_closed env cfg N C hC).1

/-- Witness for C3: an environment where the reader fails on every attempt;
the row fails after three attempts with the read error, having slept 2000
and 4000 ms, and a two-row run still yields both rows' outcomes. -/
theorem processRow_retries_and_isolation_witness :
    (attemptRow envReadFail cfgW 2 1).2 = .error "Failed to read row" ∧
    (attemptRow envReadFail cfgW 2 2).2 = .error "Failed to read row" ∧
    (attemptRow envReadFail cfgW 2 3).2 = .error "Failed to read row" ∧
    "Failed to read row" ≠ "" ∧
    (processRow envReadFail cfgW 2 = failResult 2 "Failed to read row" ∧
     (processRow envReadFail cfgW 2).success = false ∧
     (processRow envReadFail cfgW 2).error = some "Failed to read row" ∧
     sleepsOf (processRowGo envReadFail cfgW 2 1).1 = [2000 * 1, 2000 * 2] ∧
     ∀ N C, 0 < C →
       (processLeads envReadFail cfgW N C).results =
         (rowNums N).map (processRow envReadFail cfgW)) :=
  ⟨rfl, rfl, rfl, by decide,
   processRow_retries_and_isolation envReadFail cfgW 2 _ _ _ rfl rfl rfl (by decide)⟩

/-! ### C2 — buffered writes and the (absent) chunk barrier -/

theorem writesOf_append (a b : List Ev) : writesOf (a ++ b) = writesOf a ++ writesOf b :=
  List.filterMap_append a b _

theorem writesOf_flush (buf : List (Nat × List String)) : writesOf (flushEvents buf) = buf := by
  induction buf with
  | nil => rfl
  | cons e t ih => simp [flushEvents, writesOf] at ih ⊢; exact ih

theorem attemptRow_no_write (env : PipeEnv) (cfg : PipeCfg) (r k : Nat) :
    writesOf (attemptRow env cfg r k).1 = [] := by
  unfold attemptRow
  rcases env.read r k with _ | d
  · simp [writesOf]
  · rcases env.gen r k with e | t <;> cases cfg.hasTavily <;> simp [writesOf]

/-- A row task issues no sheet writes of its own; writes only come from
buffer flushes. -/
theorem processRowGo_no_writes (env : PipeEnv) (cfg : PipeCfg) (r : Nat) :
    ∀ k, writesOf (processRowGo env cfg r k).1 = [] := by
  intro k
  induction k using processRowGo.induct env cfg r with
  | case1 k evs res vals hatt =>
    have h := attemptRow_no_write env cfg r k
    rw [hatt] at h
    rw [processRowGo, hatt]
    exact h
  | case2 k evs e hk evs' res vals hrec hatt ih =>
    have h := attemptRow_no_write env cfg r k
    rw [hatt] at h
    rw [hrec] at ih
    rw [processRowGo, hatt]
    simp [dif_pos hk, hrec, writesOf_append, h]
    simpa [writesOf] using ih
  | case3 k evs e hk hatt =>
    have h := attemptRow_no_write env cfg r k
    rw [hatt] at h
    rw [processRowGo, hatt]
    simp [dif_neg hk]
    exact h

/-- A row task pushes a buffered write exactly when it succeeds. -/
theorem processRowGo_push_success (env : PipeEnv) (cfg : PipeCfg) (r : Nat) :
    ∀ k, (processRowGo env cfg r k).2.2.isSome = (processRowGo env cfg r k).2.1.success := by
  intro k
  induction k using processRowGo.induct env cfg r with
  | case1 k evs res vals hatt =>
    obtain ⟨-, h2, -⟩ := attemptRow_ok env cfg r k evs res vals hatt
    rw [processRowGo, hatt]
    simp [h2]
  | case2 k evs e hk evs' res vals hrec hatt ih =>
    rw [hrec] at ih
    rw [processRowGo, hatt]
    simpa [dif_pos hk, hrec] using ih
  | case3 k evs e hk hatt =>
    rw [processRowGo, hatt]
    simp [dif_neg hk, failResult]

theorem runRowBuf_inv (env : PipeEnv) (cfg : PipeCfg)
    (st : List Ev × List (Nat × List String)) (r : Nat) :
    writesOf (runRowBuf env cfg st r).1 ++ (runRowBuf env cfg st r).2 =
      writesOf st.1 ++ st.2 ++ (rowPush env cfg r).toList := by
  unfold runRowBuf rowPush
  rcases hp : processRowGo env cfg r 1 with ⟨evs, res, push⟩
  have hw : writesOf evs = [] := by
    have := processRowGo_no_writes env cfg r 1
    rw [hp] at this
    exact this
  rcases push with _ | vals
  · simp [writesOf_append, hw]
  · simp only []
    split
    · simp [writesOf_append, hw, writesOf_flush]
    · simp [writesOf_append, hw, List.append_assoc]

theorem foldl_runRowBuf_inv (env : PipeEnv) (cfg : PipeCfg) (rows : List Nat) :
    ∀ st, writesOf ((rows.foldl (runRowBuf env cfg) st).1) ++
        (rows.foldl (runRowBuf env cfg) st).2 =
      writesOf st.1 ++ st.2 ++ rows.filterMap (rowPush env cfg) := by
  induction rows with
  | nil => intro st; simp
  | cons r t ih =>
    intro st
    rw [List.foldl_cons, ih (runRowBuf env cfg st r), List.filterMap_cons]
    rw [runRowBuf_inv env cfg st r]
    rcases rowPush env cfg r with _ | v <;> simp

theorem runChunksBuf_inv (env : PipeEnv) (cfg : PipeCfg) :
    ∀ (chunks : List (List Nat)) (st : List Ev × List (Nat × List String)),
      writesOf ((runChunksBuf env cfg chunks st).1) ++ (runChunksBuf env cfg chunks st).2 =
        writesOf st.1 ++ st.2 ++ (chunks.flatten).filterMap (rowPush env cfg) := by
  intro chunks
  induction chunks with
  | nil => intro st; simp [runChunksBuf]
  | cons c rest ih =>
    intro st
    cases rest with
    | nil =>
      rw [show runChunksBuf env cfg [c] st = c.foldl (runRowBuf env cfg) st from rfl]
      simpa using foldl_runRowBuf_inv env cfg c st
    | cons c' rest' =>
      rw [show runChunksBuf env cfg (c :: c' :: rest') st =
          runChunksBuf env cfg (c' :: rest')
            ((c.foldl (runRowBuf env cfg) st).1 ++ [.sleep 2000],
             (c.foldl (runRowBuf env cfg) st).2) from rfl]
      rw [ih]
      simp only [writesOf_append]
      rw [show writesOf [Ev.sleep 2000] = [] from rfl]
      rw [List.append_nil]
      rw [foldl_runRowBuf_inv env cfg c st]
      simp [List.filterMap_append, List.append_assoc]

/-- **C2, amended.**  The pipeline's row-result writes go through a shared
buffer, flushed when it reaches 50 entries and once after the final chunk:
over a whole run, the writes issued are exactly the buffered entries of the
successful rows, in order, each carrying its own row's values — so
everything is flushed by the time `processAll` completes (but not at chunk
boundaries; see the counterexample). -/
theorem processLeadsTrace_flush_semantics (env : PipeEnv) (cfg : PipeCfg)
    (N C : Nat) (hC : 0 < C) :
    writesOf (processLeadsTrace env cfg N C) = (rowNums N).filterMap (rowPush env cfg) ∧
    ∀ r, (rowPush env cfg r).isSome = (processRow env cfg r).success := by
  constructor
  · unfold processLeadsTrace
    rw [writesOf_append, writesOf_flush]
    have h := runChunksBuf_inv env cfg (chunksOf C (rowNums N)) ([.headerWrite], [])
    rw [chunksOf_join C hC] at h
    exact h
  · intro r
    unfold rowPush processRow
    rw [← processRowGo_push_success env cfg r 1]
    rcases (processRowGo env cfg r 1).2.2 with _ | v <;> rfl

/-- Witness for C2's amended claim: a two-row run with batch size 1 flushes
both successful rows' writes by completion. -/
theorem processLeadsTrace_flush_semantics_witness :
    (0 : Nat) < 1 ∧
    (writesOf (processLeadsTrace envOk cfgW 2 1) =
      (rowNums 2).filterMap (rowPush envOk cfgW) ∧
     ∀ r, (rowPush envOk cfgW r).isSome = (processRow envOk cfgW r).success) :=
  ⟨by decide, processLeadsTrace_flush_semantics envOk cfgW 2 1 (by decide)⟩

/-- **C2, counterexample.**  With batch size 1 and two rows, row 2 is chunk
0 and row 3 is chunk 1; in the run's trace the first external call of chunk
1 (the read of row 3, at position 4) occurs strictly before the write of
chunk 0's row 2 is flushed (position 6) — chunk `k`'s writes are *not*
flushed before chunk `k + 1` begins external calls. -/
theorem processLeadsTrace_no_chunk_barrier :
    chunkIdx 1 2 = 0 ∧ chunkIdx 1 3 = 1 ∧
    (processLeadsTrace envOk cfgW 2 1).get? 4 = some (.readCall 3 1) ∧
    (processLeadsTrace envOk cfgW 2 1).get? 6 =
      some (.writeRow 2 ["s", "80", "YES", "m"]) := by
  have ht : processLeadsTrace envOk cfgW 2 1 = [Ev.headerWrite,
      Ev.readCall 2 1, Ev.genCall 2 1, Ev.sleep 2000, Ev.readCall 3 1, Ev.genCall 3 1,
      Ev.writeRow 2 ["s", "80", "YES", "m"], Ev.writeRow 3 ["s", "80", "YES", "m"]] := by
    simp [processLeadsTrace, rowNums, chunksOf_cons, chunksOf_nil, runChunksBuf, runRowBuf,
      processRowGo, attemptRow, envOk, cfgW, okText, flushEvents, List.range', parsedScore,
      parsedSummary, parsedPossible, parsedMessage]
    decide
  rw [ht]
  refine ⟨by decide, by decide, rfl, rfl⟩

/-! ### C9 — the summary's top-10 list -/

theorem orderedInsert_descLex (x : RowResult) :
    ∀ m : List RowResult, m.Pairwise descLex →
      (∀ y ∈ m, x.rowNumber < y.rowNumber) →
      (m.orderedInsert byScoreDesc x).Pairwise descLex := by
  intro m
  induction m with
  | nil =>
    intro _ _
    simp [List.orderedInsert]
  | cons y ys ih =>
    intro hm hrow
    obtain ⟨hy, hys⟩ := List.pairwise_cons.mp hm
    rw [List.orderedInsert]
    split
    · -- byScoreDesc x y: y.score ≤ x.score, x goes in front
      rename_i hxy
      refine List.Pairwise.cons ?_ hm
      intro z hz
      rcases List.mem_cons.mp hz with rfl | hz
      · rcases Nat.lt_or_ge z.score x.score with hlt | hge
        · exact Or.inl hlt
        · have : x.score = z.score := Nat.le_antisymm hge hxy
          exact Or.inr ⟨this, hrow z (List.mem_cons_self z ys)⟩
      · have hyz := hy z hz
        have hzy : z.score ≤ y.score := by
          rcases hyz with hlt | ⟨heq, -⟩
          · exact Nat.le_of_lt hlt
          · omega
        rcases Nat.lt_or_ge z.score x.score with hlt | hge
        · exact Or.inl hlt
        · have : x.score = z.score := by
            have : z.score ≤ x.score := Nat.le_trans hzy hxy
            omega
          exact Or.inr ⟨this, hrow z (List.mem_cons_of_mem y hz)⟩
    · -- ¬ byScoreDesc x y: x.score < y.score, y stays in front
      rename_i hxy
      have hxy' : x.score < y.score := Nat.lt_of_not_le hxy
      refine List.Pairwise.cons ?_
        (ih hys fun z hz => hrow z (List.mem_cons_of_mem y hz))
      intro z hz
      rcases (List.mem_orderedInsert byScoreDesc).mp hz with rfl | hz
      · exact Or.inl hxy'
      · exact hy z hz

/-- Stability: on an input whose original order is strictly ascending in
row number, the stable descending-score sort yields the `descLex` order
(scores descending; equal scores in ascending row order). -/
theorem insertionSort_descLex (l : List RowResult)
    (hl : l.Pairwise fun a b => a.rowNumber < b.rowNumber) :
    (l.insertionSort byScoreDesc).Pairwise descLex := by
  induction l with
  | nil => simp [List.insertionSort]
  | cons a t ih =>
    obtain ⟨ha, ht⟩ := List.pairwise_cons.mp hl
    rw [List.insertionSort]
    exact orderedInsert_descLex a _ (ih ht)
      (fun y hy => ha y ((List.mem_insertionSort byScoreDesc).mp hy))

/-- **C9.**  On a result list in original (ascending row) order, the
summary's `topLeads` are the first ten entries of a permutation of the
*successful* results that is sorted by score descending with ties broken by
ascending row number; every entry of that permutation (hence of `topLeads`)
is a successful row, and every row it drops scores no higher than any row it
keeps. -/
theorem generateSummary_topLeads (o : PipeOutput)
    (h : o.results.Pairwise fun a b => a.rowNumber < b.rowNumber) :
    ∃ sorted : List RowResult,
      (o.results.filter fun r => r.success).Perm sorted ∧
      sorted.Pairwise descLex ∧
      (∀ r ∈ sorted, r.success = true) ∧
      (generateSummary o).topLeads = (sorted.take 10).map toTopLead ∧
      ∀ x ∈ sorted.take 10, ∀ y ∈ sorted.drop 10, y.score ≤ x.score := by
  have hsort := insertionSort_descLex _ (h.filter (fun r => r.success))
  refine ⟨(o.results.filter fun r => r.success).insertionSort byScoreDesc,
    (List.perm_insertionSort _ _).symm, hsort, ?_, ?_, ?_⟩
  · intro r hr
    exact List.of_mem_filter ((List.mem_insertionSort byScoreDesc).mp hr)
  · rfl
  · intro x hx y hy
    have hsplit := List.pairwise_append.mp
      (by rw [List.take_append_drop 10
        ((o.results.filter fun r => r.success).insertionSort byScoreDesc)]; exact hsort)
    have := hsplit.2.2 x hx y hy
    rcases this with hlt | ⟨heq, -⟩
    · exact Nat.le_of_lt hlt
    · omega

/-- Witness for C9: four results in row order with a score tie between rows
2 and 5 and a failed row 4. -/
theorem generateSummary_topLeads_witness :
    ([{ success := true, rowNumber := 2, companyName := "A", score := 80,
        isPossibleClient := "YES", error := none },
      { success := true, rowNumber := 3, companyName := "B", score := 90,
        isPossibleClient := "YES", error := none },
      { success := false, rowNumber := 4, companyName := "Unknown", score := 0,
        isPossibleClient := "NO", error := some "boom" },
      { success := true, rowNumber := 5, companyName := "C", score := 80,
        isPossibleClient := "YES", error := none }] : List RowResult).Pairwise
      (fun a b => a.rowNumber < b.rowNumber) ∧
    (∃ sorted : List RowResult,
      (([{ success := true, rowNumber := 2, companyName := "A", score := 80,
           isPossibleClient := "YES", error := none },
         { success := true, rowNumber := 3, companyName := "B", score := 90,
           isPossibleClient := "YES", error := none },
         { success := false, rowNumber := 4, companyName := "Unknown", score := 0,
           isPossibleClient := "NO", error := some "boom" },
         { success := true, rowNumber := 5, companyName := "C", score := 80,
           isPossibleClient := "YES", error := none }] : List RowResult).filter
            fun r => r.success).Perm sorted ∧
      sorted.Pairwise descLex ∧
      (∀ r ∈ sorted, r.success = true) ∧
      (generateSummary
        { totalProcessed := 4, successful := 3, failed := 1, possibleClients := 3,
          averageScore := 83,
          results := [{ success := true, rowNumber := 2, companyName := "A", score := 80,
                        isPossibleClient := "YES", error := none },
                      { success := true, rowNumber := 3, companyName := "B", score := 90,
                        isPossibleClient := "YES", error := none },
                      { success := false, rowNumber := 4, companyName := "Unknown", score := 0,
                        isPossibleClient := "NO", error := some "boom" },
                      { success := true, rowNumber := 5, companyName := "C", score := 80,
                        isPossibleClient := "YES", error := none }] }).topLeads =
        (sorted.take 10).map toTopLead ∧
      ∀ x ∈ sorted.take 10, ∀ y ∈ sorted.drop 10, y.score ≤ x.score) :=
  ⟨by decide,
   generateSummary_topLeads
     { totalProcessed := 4, successful := 3, failed := 1, possibleClients := 3,
       averageScore := 83,
       results := [{ success := true, rowNumber := 2, companyName := "A", score := 80,
                     isPossibleClient := "YES", error := none },
                   { success := true, rowNumber := 3, companyName := "B", score := 90,
                     isPossibleClient := "YES", error := none },
                   { success := false, rowNumber := 4, companyName := "Unknown", score := 0,
                     isPossibleClient := "NO", error := some "boom" },
                   { success := true, rowNumber := 5, companyName := "C", score := 80,
                     isPossibleClient := "YES", error := none }] }
     (by decide)⟩

end MastraSDR
